import Mathlib

/-!
Shallow embedding of the SellWithDuranBot repository (src/utils.py, src/bot.py).

The sitemap-scraping pipeline is embedded as pure Lean functions:
Python strings become `String`, Python `None`/exception-to-sentinel results become
`Option`, an uncaught Python exception becomes `Except.error`, and file/network
side effects are threaded explicitly (log appends are returned as a list; the
HTTP client is an oracle argument).  Each definition is translated from the
source function of the same name; Python string primitives (`split`, `strip`,
`replace`, `join`, slices) are modelled by the `py*` helpers below with Python's
semantics.
-/

namespace Bot

/-- Helper for `pySplit`: walks the characters, cutting at each separator.
Python semantics: `''.split(sep) == ['']`, separators at the ends produce
empty pieces. -/
def pySplitAux (sep : Char) : List Char → List Char → List (List Char)
  | [], acc => [acc.reverse]
  | c :: cs, acc =>
    if c = sep then acc.reverse :: pySplitAux sep cs [] else pySplitAux sep cs (c :: acc)

/-- Python `s.split(sep)` for a one-character separator `sep`. -/
def pySplit (sep : Char) (s : String) : List String :=
  (pySplitAux sep s.data []).map String.mk

/-- Python `s.strip(c)` for a one-character strip set: removes every leading and
trailing occurrence of `c`. -/
def pyStripChar (c : Char) (s : List Char) : List Char :=
  ((s.dropWhile (· = c)).reverse.dropWhile (· = c)).reverse

/-- Python `s.replace(a, b)` for one-character `a` and `b`. -/
def pyReplaceChar (a b : Char) (s : String) : String :=
  String.mk (s.data.map fun c => if c = a then b else c)

/-- Python `sep.join(xs)`. -/
def pyJoin (sep : String) : List String → String
  | [] => ""
  | [x] => x
  | x :: y :: xs => x ++ sep ++ pyJoin sep (y :: xs)

/-- Python slice `l[:-k]`.  For `k = 0` the slice `l[:-0] = l[:0]` is empty;
for `k ≥ 1` it drops the last `k` elements. -/
def pySliceUpToNeg (k : Nat) (l : List α) : List α :=
  if k = 0 then [] else l.take (l.length - k)

/-- Splits a character list at the first occurrence of `c`, returning the parts
before and after it, or `none` when `c` does not occur. -/
def splitAtChar (c : Char) : List Char → Option (List Char × List Char)
  | [] => none
  | x :: xs =>
    if x = c then some ([], xs)
    else (splitAtChar c xs).map (fun p => (x :: p.1, p.2))

/-- Characters allowed after the first character of a URL scheme
(`urllib.parse`: letters, digits, `+`, `-`, `.`). -/
def isSchemeRestChar (c : Char) : Bool :=
  c.isAlphanum || c = '+' || c = '-' || c = '.'

/-- Drops a leading `scheme:` prefix when the text before the first `:` is a
valid scheme (a letter followed by scheme characters), as `urllib.parse` does;
otherwise returns the input unchanged. -/
def stripScheme (s : List Char) : List Char :=
  match splitAtChar ':' s with
  | none => s
  | some (before, after) =>
    match before with
    | [] => s
    | b :: bs => if b.isAlpha && bs.all isSchemeRestChar then after else s

/-- Result of `urllib.parse.urlparse` restricted to the two components the
code reads: the network location (host) and the path. -/
structure UrlParts where
  netloc : String
  path : String
deriving DecidableEq

/-- Characters that end the netloc component in `urllib.parse`. -/
def endsNetloc (c : Char) : Bool :=
  c = '/' || c = '?' || c = '#'

/-- The path component stops at the query or fragment delimiter. -/
def pathChars (s : List Char) : List Char :=
  s.takeWhile (fun c => !(c = '?' || c = '#'))

/-- Model of `urllib.parse.urlparse(url)` (netloc and path components only):
strip a valid `scheme:` prefix; if the rest starts with `//` the netloc runs to
the next `/`, `?` or `#`; the path is the remainder up to `?` or `#`.
(Query/fragment contents and IPv6-bracket validation are irrelevant to the
embedded code and are not modelled.) -/
def urlparse (url : String) : UrlParts :=
  let rest := stripScheme url.data
  match rest with
  | '/' :: '/' :: r =>
    { netloc := String.mk (r.takeWhile (fun c => !endsNetloc c)),
      path := String.mk (pathChars (r.dropWhile (fun c => !endsNetloc c))) }
  | _ => { netloc := "", path := String.mk (pathChars rest) }

/-- The list `parsed_url.path.strip('/').split('/')` computed by
`extract_params_from_url` (utils.py line 253). -/
def path_parts_of (url : String) : List String :=
  pySplit '/' (String.mk (pyStripChar '/' (urlparse url).path.data))

/-- Embedding of `extract_params_from_url` (utils.py lines 240-259): domain is
the URL's netloc, `mlsid = path_parts[1]`, `address = path_parts[2]` with
hyphens replaced by spaces.  The Python `try`/`except` turns the `IndexError`
raised when `path_parts` is too short into the sentinel `(None, None, None)`,
modelled as `none`. -/
def extract_params_from_url (url : String) : Option (String × String × String) :=
  let domain := (urlparse url).netloc
  let path_parts := path_parts_of url
  match path_parts[1]?, path_parts[2]? with
  | some mlsid, some part2 => some (domain, mlsid, pyReplaceChar '-' ' ' part2)
  | _, _ => none

/-- Embedding of `create_target_url` (utils.py lines 167-185): split the URL on
hyphens, slice off the trailing `cutoff` parts with Python's `parts[:-cutoff]`,
and rebuild `https://www.sellwithduran.com/property/{parts[1]}/{'-'.join(parts[2:])}/`.
The `try`/`except` turns the `IndexError` on `parts[1]` into the sentinel
`False`, modelled as `none`. -/
def create_target_url (url : String) (cutoff : Nat) : Option String :=
  let parts := pySliceUpToNeg cutoff (pySplit '-' url)
  match parts[1]? with
  | some p1 =>
    some ("https://www.sellwithduran.com/property/" ++ p1 ++ "/" ++
      pyJoin "-" (parts.drop 2) ++ "/")
  | none => none

/-- Statement of the C6 claim's algorithm, written from the spec's words
(§4.3): "split the public URL into hyphen-delimited segments, drop the trailing
`cutoff` segments, then reconstruct
`{base}/property/{segment[1]}/{remaining-segments-joined-by-hyphen}/`",
failing when the resulting segment list is too short to index. -/
def create_target_url_claim (url : String) (cutoff : Nat) : Option String :=
  let segs := pySplit '-' url
  let kept := segs.take (segs.length - cutoff)
  match kept[1]? with
  | some p1 =>
    some ("https://www.sellwithduran.com/property/" ++ p1 ++ "/" ++
      pyJoin "-" (kept.drop 2) ++ "/")
  | none => none

/-- A JSON-ish value stored in a listing record: the fields the embedded code
inspects are strings (status codes, plain fields) or lists of strings (the
photo-URL sequence). -/
inductive PyVal where
  | str (s : String)
  | list (l : List String)
deriving DecidableEq

/-- Python dict lookup `data[k]` / membership `k in data`, with the record
modelled as an association list (first match wins). -/
def lookupVal (data : List (String × PyVal)) (k : String) : Option PyVal :=
  match data with
  | [] => none
  | (k', v) :: rest => if k' = k then some v else lookupVal rest k

/-- The `statuses` dictionary literal inside `parse_data`
(utils.py lines 321-328). -/
def statuses : List (String × String) :=
  [("comingSoon", "Coming Soon"), ("active", "Available"), ("openHouse", "Available"),
   ("justListed", "Available"), ("priceReduced", "Price reduced"), ("sold", "Sold")]

/-- Python dict lookup on the `statuses` literal. -/
def statusesLookup (k : String) : Option String :=
  match statuses.find? (fun p => p.1 = k) with
  | some p => some p.2
  | none => none

/-- The `photourl` branch of `parse_data`:
`data[value][0] if len(data[value]) else ''`.  Indexing a Python string yields
its first character (a one-character string); indexing a list yields its head.
Total, because the indexing is guarded by the length test. -/
def photoVal : PyVal → PyVal
  | .str s =>
    match s.data with
    | [] => .str ""
    | c :: _ => .str (String.mk [c])
  | .list l =>
    match l with
    | [] => .str ""
    | x :: _ => .str x

/-- The `status` branch of `parse_data`:
`statuses[data[value]] if data[value] in statuses else 'Available'`.
A string value is looked up with the default; a list value makes Python's
dict membership test raise `TypeError: unhashable type` — an uncaught
exception, modelled as `Except.error`. -/
def statusVal : PyVal → Except Unit PyVal
  | .str s =>
    .ok (.str (match statusesLookup s with
      | some label => label
      | none => "Available"))
  | .list _ => .error ()

/-- One iteration body of `parse_data`'s loop for a field whose source key is
present with value `v`: the `photourl` and `status` special cases, with all
other fields passed through unchanged. -/
def parse_field_val (field : String) (v : PyVal) : Except Unit PyVal :=
  if field = "photourl" then .ok (photoVal v)
  else if field = "status" then statusVal v
  else .ok v

/-- Embedding of `parse_data` (utils.py lines 303-336): walks the
`(field, sourceKey)` mapping in order; a present key contributes its
(possibly transformed) value, a missing key contributes `''` (the code prints
a notice and continues).  An exception raised while transforming a value
(see `statusVal`) aborts the whole call, as in Python. -/
def parse_data (data : List (String × PyVal)) (toExtract : List (String × String)) :
    Except Unit (List (String × PyVal)) :=
  match toExtract with
  | [] => .ok []
  | (field, value) :: rest =>
    match lookupVal data value with
    | some v =>
      match parse_field_val field v with
      | .error e => .error e
      | .ok fv => Except.map (fun r => (field, fv) :: r) (parse_data data rest)
    | none => Except.map (fun r => (field, PyVal.str "") :: r) (parse_data data rest)

/-- An HTTP response as `requests` presents it to the embedded code. -/
structure HttpResponse where
  status_code : Nat
  text : String

/-- Embedding of `post_data` (utils.py lines 338-355), with the transport
(`requests.post`) supplied as an oracle that either returns a response or
raises (`requests.exceptions.RequestException` on a transport failure,
modelled as `.error`).  `post_data` has no `try`/`except`, so a raising
transport propagates out of the function uncaught.  On a completed response
with status 200 the function returns `True`; on any other status it prints
the error and falls off the end of the function, returning Python's `None` —
modelled as `.ok none` (it never returns `False`, although its docstring
promises a `bool`). -/
def post_data (http : String → List (String × PyVal) → Except Unit HttpResponse)
    (url : String) (data : List (String × PyVal)) : Except Unit (Option Bool) :=
  match http url data with
  | .error e => .error e
  | .ok response =>
    if response.status_code = 200 then .ok (some true) else .ok none

/-- What the vendor API's HTTP exchange can yield to `get_json_data`:
a transport error (`requests.exceptions.RequestException`, including non-2xx
via `raise_for_status`), a body on which `.json()` or the `['listing']` access
raises, or a parsed `listing` value (a possibly empty record; Python treats an
empty or null listing as falsy). -/
inductive ApiResponse where
  | netError
  | badJson
  | body (listing : List (String × PyVal))

/-- Embedding of `get_json_data` (utils.py lines 262-300), with the HTTP GET
supplied as an oracle receiving the query parameters `(mlsid, address, domain)`.
Returns `none` for every path on which the Python code returns `False`:
unusable URL parameters, transport error, malformed body, or a falsy listing. -/
def get_json_data (net : String → String → String → String → ApiResponse)
    (api_url url key : String) : Option (List (String × PyVal)) :=
  match extract_params_from_url url with
  | none => none
  | some (domain, mlsid, address) =>
    if domain = "" || mlsid = "" || address = "" then none
    else
      match net api_url mlsid address domain with
      | .netError => none
      | .badJson => none
      | .body listing => if listing.isEmpty then none else some listing

/-- The slice of the configuration dictionary that `process_url` and
`process_sitemap` read (config.json is external; see spec §6). -/
structure Config where
  api_url : String
  vendor_token : String
  webform_url : String
  processed_urls : String
  unprocessed_urls : String
  unsaved_urls : String
  api_extraction : List (String × String)

/-- Result of the cutoff-escalation loop inside `process_url`:
`aborted` when `create_target_url` returned `False` (the code records the URL
as unprocessed and returns), `exhausted` when the loop ended with nothing
extracted, `success` with the extracted listing otherwise. -/
inductive LoopResult where
  | aborted
  | exhausted
  | success (listing : List (String × PyVal))
deriving DecidableEq

/-- The `while (current_cutoff <= max_cutoff) and (not extracted)` loop of
`process_url` (utils.py lines 371-379), with `fuel` the number of remaining
iterations (`max_cutoff + 1 - cur`). -/
def process_url_loop (url api_url token : String)
    (net : String → String → String → String → ApiResponse) :
    Nat → Nat → LoopResult
  | _, 0 => .exhausted
  | cur, fuel + 1 =>
    match create_target_url url cur with
    | none => .aborted
    | some new_url =>
      match get_json_data net api_url new_url token with
      | some listing => .success listing
      | none => process_url_loop url api_url token net (cur + 1) fuel

/-- Embedding of `process_url` (utils.py lines 356-398).  The network clients
are oracles; the file appends performed via `save_urls_to_file` are returned as
an explicit `(logfile, url)` list (a single-URL append always writes).  The
result is `.error` when an uncaught Python exception escapes the function —
from `parse_data` (see `statusVal`) or from the unguarded `requests.post`
inside `post_data` (delivery transport failure); in either case the worker
dies before any `save_urls_to_file` call, so no append happens.  The loop
starts at cutoff 3; on a falsy loop result the URL is recorded as unprocessed;
after extraction the record is mapped and posted, recording unsaved on a falsy
post result and processed on success. -/
def process_url (url : String) (config : Config)
    (net : String → String → String → String → ApiResponse)
    (http : String → List (String × PyVal) → Except Unit HttpResponse)
    (max_cutoff : Nat) : Except Unit (Bool × List (String × String)) :=
  match process_url_loop url config.api_url config.vendor_token net 3 (max_cutoff + 1 - 3) with
  | .aborted => .ok (false, [(config.unprocessed_urls, url)])
  | .exhausted => .ok (false, [(config.unprocessed_urls, url)])
  | .success extracted =>
    match parse_data extracted config.api_extraction with
    | .error e => .error e
    | .ok needed =>
      match post_data http config.webform_url needed with
      | .error e => .error e
      | .ok (some true) => .ok (true, [(config.processed_urls, url)])
      | .ok _ => .ok (false, [(config.unsaved_urls, url)])

/-- The lines of a state-store log file, or `none` when the file does not
exist (Python's `FileNotFoundError` branch). -/
def logLines : Option (List String) → List String
  | none => []
  | some rows => rows

/-- Embedding of `filter_processed_urls` (utils.py lines 145-164): loads the
log's rows into a set (`none` — a missing file — gives the empty set) and
keeps the input URLs not in that set, in order.  The Python set is modelled by
list membership. -/
def filter_processed_urls (urls : List String) (log : Option (List String)) : List String :=
  let processed := logLines log
  urls.filter (fun u => decide (u ∉ processed))

/-- Embedding of `filter_urls_by_date` (utils.py lines 85-96): keeps the URL of
every `(url, lastmod)` pair whose `lastmod` equals `date` exactly. -/
def filter_urls_by_date (urls : List (String × String)) (date : String) : List String :=
  (urls.filter (fun p => p.2 = date)).map Prod.fst

/-- Modelled from the spec: `filter_urls_by_dates` is called by
`process_sitemap` (bot.py line 28) with a list of requested dates, but its
definition is nowhere in src/ — only this call site is.  Spec §4.7: "filter
entries by target date(s) (exact string equality against `lastModified`)";
§8: the filter keeps exactly the entries whose date is in the requested set. -/
def filter_urls_by_dates (urls : List (String × String)) (dates : List String) : List String :=
  (urls.filter (fun p => decide (p.2 ∈ dates))).map Prod.fst

/-- Embedding of the candidate-selection stage of `process_sitemap`
(bot.py lines 25-38): filter the parsed entries by the requested dates (or
keep every URL when date filtering is disabled), drop URLs present in the
processed log, then in the unprocessed log, then truncate to `max_scrap`. -/
def process_sitemap_candidates (urls : List (String × String)) (dates : List String)
    (filter_by_date : Bool) (processedLog unprocessedLog : Option (List String))
    (max_scrap : Nat) : List String :=
  let filtered :=
    if filter_by_date then filter_urls_by_dates urls dates
    else urls.map Prod.fst
  let filtered := filter_processed_urls filtered processedLog
  let filtered := filter_processed_urls filtered unprocessedLog
  filtered.take max_scrap

/-- A `<url>` element of the sitemap as `ElementTree` hands it to
`parse_sitemap`: `find` returns the child's text, or `None` (modelled `none`)
when the `loc`/`lastmod` child is missing. -/
structure UrlElem where
  loc : Option String
  lastmod : Option String

/-- Python `element.find(tag).text`: reading `.text` on the `None` returned by
`find` for a missing child raises `AttributeError` — uncaught in
`parse_sitemap`, modelled as `Except.error`. -/
def textOf : Option String → Except Unit String
  | some s => .ok s
  | none => .error ()

/-- Embedding of `parse_sitemap` (utils.py lines 59-83).  The input is the
parsed document's `url` elements, or `none` when `ET.parse` raised
`ET.ParseError` — that exception is caught and an empty list returned.  The
list comprehension reads `loc` then `lastmod` of each element in order; a
missing child raises an uncaught `AttributeError` that aborts the whole call
(`Except.error`). -/
def parse_sitemap (doc : Option (List UrlElem)) : Except Unit (List (String × String)) :=
  match doc with
  | none => .ok []
  | some elems =>
    elems.mapM (fun e =>
      match textOf e.loc, textOf e.lastmod with
      | .ok l, .ok m => Except.ok (l, m)
      | .error er, _ => Except.error er
      | _, .error er => Except.error er)

/-- The per-URL outcome vocabulary of spec §4.7 / data model §3. -/
inductive Outcome where
  | processed
  | unprocessed
  | unsaved
deriving DecidableEq

/-- The log file that records an outcome (spec §4.2). -/
def logFileFor (config : Config) : Outcome → String
  | .processed => config.processed_urls
  | .unprocessed => config.unprocessed_urls
  | .unsaved => config.unsaved_urls

/-- The boolean `process_url` returns for an outcome. -/
def outcomeBool : Outcome → Bool
  | .processed => true
  | .unprocessed => false
  | .unsaved => false

/-- The per-URL state machine exactly as claim C3 / spec §4.7 words it:
"starting at cutoff 3, repeatedly resolve the target URL and attempt
extraction; on resolution failure, abort immediately and record Unprocessed.
On extraction failure, increment cutoff and retry, up to and including cutoff
6.  If all cutoffs exhausted without extraction, record Unprocessed.  On
successful extraction, map fields and attempt delivery; on delivery failure,
record Unsaved; on delivery success, record Processed."  Every delivery
failure — a non-200 response or a raising transport — records Unsaved here,
as the claim's words require.  (The mapping step is assumed not to raise; if
it does, this machine arbitrarily answers Unprocessed.)  Used to state C3's
counterexample. -/
def processUrlSpec (url : String) (config : Config)
    (net : String → String → String → String → ApiResponse)
    (http : String → List (String × PyVal) → Except Unit HttpResponse)
    (c : Nat) : Outcome :=
  if h : 6 < c then .unprocessed
  else
    match create_target_url url c with
    | none => .unprocessed
    | some target =>
      match get_json_data net config.api_url target config.vendor_token with
      | none => processUrlSpec url config net http (c + 1)
      | some listing =>
        match parse_data listing config.api_extraction with
        | .error _ => .unprocessed
        | .ok needed =>
          match post_data http config.webform_url needed with
          | .ok (some true) => .processed
          | _ => .unsaved
termination_by 7 - c
decreasing_by omega

/-- The per-URL state machine of the amended claim C3: identical to
`processUrlSpec` except on the two uncaught-exception paths the code really
has — a field-mapping exception or a delivery transport exception aborts the
pipeline with nothing recorded (`.error`); a delivery that completes with a
non-200 status records Unsaved, and a 200 records Processed. -/
def processUrlSpecExc (url : String) (config : Config)
    (net : String → String → String → String → ApiResponse)
    (http : String → List (String × PyVal) → Except Unit HttpResponse)
    (c : Nat) : Except Unit Outcome :=
  if h : 6 < c then .ok .unprocessed
  else
    match create_target_url url c with
    | none => .ok .unprocessed
    | some target =>
      match get_json_data net config.api_url target config.vendor_token with
      | none => processUrlSpecExc url config net http (c + 1)
      | some listing =>
        match parse_data listing config.api_extraction with
        | .error e => .error e
        | .ok needed =>
          match post_data http config.webform_url needed with
          | .error e => .error e
          | .ok (some true) => .ok .processed
          | .ok _ => .ok .unsaved
termination_by 7 - c
decreasing_by omega

/-- The status transform exactly as claim C8 words it: `comingSoon` ↦
"Coming Soon"; `active`, `openHouse`, `justListed` ↦ "Available";
`priceReduced` ↦ "Price reduced"; `sold` ↦ "Sold"; every other raw value ↦
the default "Available". -/
def claimStatusLabel (raw : String) : String :=
  if raw = "comingSoon" then "Coming Soon"
  else if raw = "active" ∨ raw = "openHouse" ∨ raw = "justListed" then "Available"
  else if raw = "priceReduced" then "Price reduced"
  else if raw = "sold" then "Sold"
  else "Available"

/-- Whether an `Except` computation finished without an uncaught exception. -/
def okBool : Except ε α → Bool
  | .ok _ => true
  | .error _ => false

/-- The public listing URL used by driver.py, reused as a concrete test input. -/
def sampleUrl : String :=
  "https://www.sellwithduran.com/property/1-H6255197-253-Merrick-Avenue-Hempstead-NY-11554"

/-- A vendor-API oracle that always answers with a one-field listing whose
status is `sold`. -/
def netSold : String → String → String → String → ApiResponse :=
  fun _ _ _ _ => .body [("st", PyVal.str "sold")]

/-- A webform transport oracle that always completes with HTTP 200. -/
def http200 : String → List (String × PyVal) → Except Unit HttpResponse :=
  fun _ _ => .ok ⟨200, "ok"⟩

/-- A webform transport oracle that always raises
(`requests.exceptions.RequestException`, e.g. a refused connection). -/
def httpRaise : String → List (String × PyVal) → Except Unit HttpResponse :=
  fun _ _ => .error ()

/-- A concrete configuration whose mapping extracts only the status field. -/
def sampleConfig : Config :=
  ⟨"https://api.example.com/property", "vendor-token", "https://webform.example.com/submit",
   "processed_urls.csv", "unprocessed_urls.csv", "unsaved_urls.csv", [("status", "st")]⟩

example : pySplit '-' "a-b--c" = ["a", "b", "", "c"] := by decide

example : urlparse "https://www.sellwithduran.com/property/3483489/18-Greenbrush-Court" =
    { netloc := "www.sellwithduran.com", path := "/property/3483489/18-Greenbrush-Court" } := by
  decide

example : extract_params_from_url "https://www.sellwithduran.com/property/3483489/18-Greenbrush-Court" =
    some ("www.sellwithduran.com", "3483489", "18 Greenbrush Court") := by decide

example : create_target_url
    "https://www.sellwithduran.com/property/1-H6255197-253-Merrick-Avenue-Hempstead-NY-11554" 3 =
    some "https://www.sellwithduran.com/property/H6255197/253-Merrick-Avenue/" := by decide

/-- C4 (code bug): the spec requires that a sitemap `url` element missing its
`loc` or `lastmod` child must not crash the whole parse, but `parse_sitemap`
reads `.text` off the `None` that `find` returns, raising an uncaught
`AttributeError`: on a document whose second entry lacks `lastmod`, the whole
parse aborts instead of completing for the remaining entries. -/
theorem parse_sitemap_missing_child_crashes :
    parse_sitemap (some
      [⟨some "https://example.com/a", some "2024-01-01"⟩,
       ⟨some "https://example.com/b", none⟩,
       ⟨some "https://example.com/c", some "2024-01-02"⟩]) = .error () := rfl

/-- C10 (code bug): on a completed POST, `post_data` reports success (`True`)
exactly on HTTP 200, but on any other status it falls off the end of the
function and returns Python's `None` — not the boolean `False` its own
docstring promises. -/
theorem post_data_non200_returns_none :
    post_data (fun _ _ => .ok ⟨500, "Internal Server Error"⟩)
      "https://webform.example.com" [] = .ok none ∧
    post_data http200 "https://webform.example.com" [] = .ok (some true) := by
  exact ⟨rfl, rfl⟩

/-- C6 (counterexample): the claim quantifies over every cutoff, but at
cutoff 0 Python's slice `parts[:-0]` is empty, so `create_target_url` fails
even though dropping the trailing 0 segments (the claim's algorithm,
`create_target_url_claim`) leaves plenty of segments to index. -/
theorem create_target_url_cutoff_zero_cex :
    create_target_url sampleUrl 0 = none ∧
    create_target_url_claim sampleUrl 0 =
      some "https://www.sellwithduran.com/property/H6255197/253-Merrick-Avenue-Hempstead-NY-11554/" ∧
    create_target_url sampleUrl 0 ≠ create_target_url_claim sampleUrl 0 := by
  refine ⟨rfl, by decide, by decide⟩

/-- C6 (amended): for every URL and every cutoff ≥ 1 — every value the program
uses — `create_target_url` computes exactly the claim's algorithm: split on
hyphens, drop the trailing `cutoff` segments, rebuild
`{base}/property/{segment[1]}/{rest-joined}/`; and it returns the `MalformedUrl`
sentinel (never raising) exactly when the remaining segment list is too short
to index, i.e. when the URL has fewer than `cutoff + 2` hyphen segments. -/
theorem create_target_url_eq_claim (url : String) (cutoff : Nat) (hc : 1 ≤ cutoff) :
    create_target_url url cutoff = create_target_url_claim url cutoff ∧
    (create_target_url url cutoff = none ↔ (pySplit '-' url).length < cutoff + 2) := by
  have hne : ¬ cutoff = 0 := by omega
  have hlen : ((pySplit '-' url).take ((pySplit '-' url).length - cutoff)).length =
      (pySplit '-' url).length - cutoff := by
    rw [List.length_take]; exact min_eq_left (Nat.sub_le _ _)
  constructor
  · unfold create_target_url create_target_url_claim pySliceUpToNeg
    rw [if_neg hne]
  · unfold create_target_url pySliceUpToNeg
    rw [if_neg hne]
    rcases h : ((pySplit '-' url).take ((pySplit '-' url).length - cutoff))[1]? with _ | p1
    · have ha := List.getElem?_eq_none_iff.mp h
      rw [hlen] at ha
      simp only [h]
      exact ⟨fun _ => by omega, fun _ => trivial⟩
    · obtain ⟨hlt, _⟩ := List.getElem?_eq_some_iff.mp h
      rw [hlen] at hlt
      simp only [h]
      exact ⟨fun hf => Option.noConfusion hf, fun hl => absurd hl (by omega)⟩

/-- C6 (witness for the amended theorem): at the driver's sample URL and the
default cutoff 3 the two definitions agree. -/
theorem create_target_url_eq_claim_witness :
    create_target_url sampleUrl 3 = create_target_url_claim sampleUrl 3 :=
  (create_target_url_eq_claim sampleUrl 3 (by decide)).1

/-- C5 (counterexample): the claim says `extract_params_from_url` fails exactly
when the path has fewer than 2 segments, but on a target URL whose path has
exactly 2 segments the code still fails: it reads `path_parts[2]` (a third
segment) for the address, so the `IndexError` branch returns the failure
sentinel. -/
theorem extract_params_two_segments_cex :
    (path_parts_of "https://www.sellwithduran.com/property/H6255197").length = 2 ∧
    extract_params_from_url "https://www.sellwithduran.com/property/H6255197" = none := by
  exact ⟨rfl, rfl⟩

/-- C5 (amended): `extract_params_from_url` parses the target URL into
`{domain, mlsId, address}` with domain the URL's host, `mlsId` the second path
segment (`path_parts[1]`) and address the *third* path segment
(`path_parts[2]`) with hyphens replaced by spaces; it returns the
`MalformedUrl` sentinel (a failure value, not a crash) exactly when the path
has fewer than 3 segments, and succeeds otherwise. -/
theorem extract_params_from_url_spec (url : String) :
    ((path_parts_of url).length < 3 → extract_params_from_url url = none) ∧
    (∀ m a, (path_parts_of url)[1]? = some m → (path_parts_of url)[2]? = some a →
      extract_params_from_url url = some ((urlparse url).netloc, m, pyReplaceChar '-' ' ' a)) ∧
    ((extract_params_from_url url).isSome ↔ 3 ≤ (path_parts_of url).length) := by
  refine ⟨?_, ?_, ?_⟩
  · intro hshort
    unfold extract_params_from_url
    have h2 : (path_parts_of url)[2]? = none := List.getElem?_eq_none (by omega)
    rcases h1 : (path_parts_of url)[1]? with _ | m
    · simp only [h1, h2]
    · simp only [h1, h2]
  · intro m a h1 h2
    unfold extract_params_from_url
    simp only [h1, h2]
  · unfold extract_params_from_url
    rcases h1 : (path_parts_of url)[1]? with _ | m
    · have ha := List.getElem?_eq_none_iff.mp h1
      have h2 : (path_parts_of url)[2]? = none := List.getElem?_eq_none (by omega)
      simp only [h1, h2]
      exact ⟨fun hf => Bool.noConfusion hf, fun hl => absurd hl (by omega)⟩
    · rcases h2 : (path_parts_of url)[2]? with _ | a
      · have hb := List.getElem?_eq_none_iff.mp h2
        simp only [h1, h2]
        exact ⟨fun hf => Bool.noConfusion hf, fun hl => absurd hl (by omega)⟩
      · obtain ⟨hlt, _⟩ := List.getElem?_eq_some_iff.mp h2
        simp only [h1, h2]
        exact ⟨fun _ => by omega, fun _ => rfl⟩

/-- C5 (witness for the amended theorem): on the driver's hand-built target URL
the extractor returns the host, the MLS id, and the de-hyphenated address. -/
theorem extract_params_from_url_spec_witness :
    extract_params_from_url "https://www.sellwithduran.com/property/3483489/18-Greenbrush-Court" =
      some ("www.sellwithduran.com", "3483489", "18 Greenbrush Court") :=
  (extract_params_from_url_spec
    "https://www.sellwithduran.com/property/3483489/18-Greenbrush-Court").2.1
    "3483489" "18-Greenbrush-Court" rfl rfl

/-- C7: `filter_processed_urls` returns an order-preserving subsequence of its
input; a URL survives exactly when it is in the input and not in the log's
line set; multiplicities of surviving URLs are untouched; and a missing log
file acts as the empty set (the whole input survives), not as an error. -/
theorem filter_processed_urls_spec (urls : List String) (log : Option (List String)) :
    (filter_processed_urls urls log).Sublist urls ∧
    (∀ u, u ∈ filter_processed_urls urls log ↔ u ∈ urls ∧ u ∉ logLines log) ∧
    (∀ u, u ∉ logLines log → (filter_processed_urls urls log).count u = urls.count u) ∧
    (log = none → filter_processed_urls urls log = urls) := by
  refine ⟨List.filter_sublist _, ?_, ?_, ?_⟩
  · intro u
    simp [filter_processed_urls]
  · intro u hu
    unfold filter_processed_urls
    rw [List.count_filter (by simpa using hu)]
  · intro hnone
    subst hnone
    simp [filter_processed_urls, logLines]

/-- C7 (witness): with no log file on disk, a two-URL batch passes through
unchanged. -/
theorem filter_processed_urls_spec_witness :
    filter_processed_urls ["https://example.com/a", "https://example.com/b"] none =
      ["https://example.com/a", "https://example.com/b"] :=
  (filter_processed_urls_spec ["https://example.com/a", "https://example.com/b"] none).2.2.2 rfl

/-- Sanity check relating the spec-modelled plural date filter to the
singular `filter_urls_by_date` that src/utils.py does define: on a singleton
date set they agree. -/
theorem filter_urls_by_dates_singleton (urls : List (String × String)) (date : String) :
    filter_urls_by_dates urls [date] = filter_urls_by_date urls date := by
  unfold filter_urls_by_dates filter_urls_by_date
  congr 1
  apply List.filter_congr
  intro p _
  simp

/-- C1: the date-filtering step of `process_sitemap` keeps exactly the URLs of
the parsed entries whose `lastModified` string equals one of the requested
dates (exact string equality), and the candidate batch is obtained by feeding
precisely that filtered list into the state-store filtering (processed log,
then unprocessed log, then the batch cap).  `filter_urls_by_dates` itself is
modelled from the spec because only its call site exists in src/. -/
theorem sitemap_date_filter_spec (urls : List (String × String)) (dates : List String)
    (processedLog unprocessedLog : Option (List String)) (max_scrap : Nat) :
    (∀ u, u ∈ filter_urls_by_dates urls dates ↔ ∃ lm, (u, lm) ∈ urls ∧ lm ∈ dates) ∧
    process_sitemap_candidates urls dates true processedLog unprocessedLog max_scrap =
      (filter_processed_urls
        (filter_processed_urls (filter_urls_by_dates urls dates) processedLog)
        unprocessedLog).take max_scrap := by
  constructor
  · intro u
    unfold filter_urls_by_dates
    simp only [List.mem_map, List.mem_filter]
    constructor
    · rintro ⟨⟨a, lm⟩, ⟨hmem, hdate⟩, rfl⟩
      exact ⟨lm, hmem, by simpa using hdate⟩
    · rintro ⟨lm, hmem, hdate⟩
      exact ⟨(u, lm), ⟨hmem, by simpa using hdate⟩, rfl⟩
  · rfl

/-- C1 (witness): a matching entry is kept by the date filter. -/
theorem sitemap_date_filter_spec_witness :
    "https://example.com/a" ∈
      filter_urls_by_dates
        [("https://example.com/a", "2024-01-01"), ("https://example.com/b", "2023-12-31")]
        ["2024-01-01", "2024-01-02"] :=
  ((sitemap_date_filter_spec
      [("https://example.com/a", "2024-01-01"), ("https://example.com/b", "2023-12-31")]
      ["2024-01-01", "2024-01-02"] none none 5).1 "https://example.com/a").mpr
    ⟨"2024-01-01", by simp, by simp⟩

/-- The transform `parse_data` applies to a present string-valued status field
agrees, value by value, with the table claim C8 states (`claimStatusLabel`). -/
theorem status_label_matches_claim (raw : String) :
    statusVal (PyVal.str raw) = .ok (.str (claimStatusLabel raw)) := by
  by_cases h1 : raw = "comingSoon"
  · subst h1; rfl
  by_cases h2 : raw = "active"
  · subst h2; rfl
  by_cases h3 : raw = "openHouse"
  · subst h3; rfl
  by_cases h4 : raw = "justListed"
  · subst h4; rfl
  by_cases h5 : raw = "priceReduced"
  · subst h5; rfl
  by_cases h6 : raw = "sold"
  · subst h6; rfl
  simp [statusVal, statusesLookup, statuses, claimStatusLabel, List.find?,
    h1, h2, h3, h4, h5, h6, Ne.symm h1, Ne.symm h2, Ne.symm h3, Ne.symm h4,
    Ne.symm h5, Ne.symm h6]

/-- C8: mapping a record whose status source key holds the raw string `raw`
produces exactly the claim's table: `comingSoon` ↦ "Coming Soon"; `active`,
`openHouse`, `justListed` ↦ "Available"; `priceReduced` ↦ "Price reduced";
`sold` ↦ "Sold"; any other raw value ↦ the default "Available"
(`claimStatusLabel` spells out that table). -/
theorem parse_data_status_mapping (data : List (String × PyVal)) (k raw : String)
    (h : lookupVal data k = some (PyVal.str raw)) :
    parse_data data [("status", k)] = .ok [("status", PyVal.str (claimStatusLabel raw))] := by
  have hpf : parse_field_val "status" (PyVal.str raw) =
      Except.ok (PyVal.str (claimStatusLabel raw)) := by
    have hv : parse_field_val "status" (PyVal.str raw) = statusVal (PyVal.str raw) := rfl
    rw [hv, status_label_matches_claim]
  unfold parse_data
  rw [h]
  simp only [hpf, parse_data, Except.map]

/-- C8 (witness): a record whose status is `sold` maps to "Sold". -/
theorem parse_data_status_mapping_witness :
    parse_data [("st", PyVal.str "sold")] [("status", "st")] =
      .ok [("status", PyVal.str "Sold")] :=
  parse_data_status_mapping [("st", PyVal.str "sold")] "st" "sold" rfl

/-- Mapping the success value of an `Except` leaves success/failure unchanged. -/
theorem okBool_map (f : α → β) (ex : Except ε α) : okBool (Except.map f ex) = okBool ex := by
  cases ex <;> rfl

/-- C9: a missing source key never makes `parse_data` fail — whether the call
finishes without an uncaught exception is decided solely by the entries whose
source key is present (first conjunct: dropping the absent-key entries does
not change success) — and on every successful run the output has exactly the
mapping's output fields, in order, with every absent-key field bound to the
empty string. -/
theorem parse_data_missing_key_spec (data : List (String × PyVal))
    (toExtract : List (String × String)) :
    (okBool (parse_data data toExtract) =
      okBool (parse_data data (toExtract.filter (fun e => (lookupVal data e.2).isSome)))) ∧
    (∀ r, parse_data data toExtract = .ok r →
      r.map Prod.fst = toExtract.map Prod.fst ∧
      ∀ f k, (f, k) ∈ toExtract → lookupVal data k = none → (f, PyVal.str "") ∈ r) := by
  induction toExtract with
  | nil =>
    refine ⟨rfl, ?_⟩
    intro r hr
    cases hr
    exact ⟨rfl, fun f k hmem _ => absurd hmem (List.not_mem_nil _)⟩
  | cons e rest ih =>
    obtain ⟨field, value⟩ := e
    rcases hk : lookupVal data value with _ | v
    · constructor
      · have hgoal : okBool (parse_data data ((field, value) :: rest)) =
            okBool (parse_data data rest) := by
          simp only [parse_data, hk, okBool_map]
        rw [hgoal, ih.1]
        congr 1
        simp [List.filter_cons, hk]
      · intro r hr
        simp only [parse_data, hk] at hr
        cases hrest : parse_data data rest with
        | error e => rw [hrest] at hr; exact Except.noConfusion hr
        | ok r' =>
          rw [hrest] at hr
          have hr2 : Except.ok ((field, PyVal.str "") :: r') = Except.ok r := hr
          injection hr2 with hr3
          subst hr3
          obtain ⟨hfields, hmem⟩ := ih.2 r' hrest
          constructor
          · simp [hfields]
          · intro f k hmem' hknone
            rcases List.mem_cons.mp hmem' with heq | htail
            · injection heq with he1 he2
              subst he1
              exact List.mem_cons_self _ _
            · exact List.mem_cons_of_mem _ (hmem f k htail hknone)
    · cases hpf : parse_field_val field v with
      | error e =>
        constructor
        · have hl : okBool (parse_data data ((field, value) :: rest)) = false := by
            simp only [parse_data, hk, hpf, okBool]
          have hfilter : ((field, value) :: rest).filter
              (fun e => (lookupVal data e.2).isSome) =
              (field, value) :: rest.filter (fun e => (lookupVal data e.2).isSome) := by
            simp [List.filter_cons, hk]
          have hrr : okBool (parse_data data ((field, value) ::
              rest.filter (fun e => (lookupVal data e.2).isSome))) = false := by
            simp only [parse_data, hk, hpf, okBool]
          rw [hl, hfilter, hrr]
        · intro r hr
          simp only [parse_data, hk, hpf] at hr
          exact Except.noConfusion hr
      | ok fv =>
        constructor
        · have hl : okBool (parse_data data ((field, value) :: rest)) =
              okBool (parse_data data rest) := by
            simp only [parse_data, hk, hpf, okBool_map]
          have hfilter : ((field, value) :: rest).filter
              (fun e => (lookupVal data e.2).isSome) =
              (field, value) :: rest.filter (fun e => (lookupVal data e.2).isSome) := by
            simp [List.filter_cons, hk]
          have hrr : okBool (parse_data data ((field, value) ::
              rest.filter (fun e => (lookupVal data e.2).isSome))) =
              okBool (parse_data data (rest.filter (fun e => (lookupVal data e.2).isSome))) := by
            simp only [parse_data, hk, hpf, okBool_map]
          rw [hl, hfilter, hrr, ih.1]
        · intro r hr
          simp only [parse_data, hk, hpf] at hr
          cases hrest : parse_data data rest with
          | error e => rw [hrest] at hr; exact Except.noConfusion hr
          | ok r' =>
            rw [hrest] at hr
            have hr2 : Except.ok ((field, fv) :: r') = Except.ok r := hr
            injection hr2 with hr3
            subst hr3
            obtain ⟨hfields, hmem⟩ := ih.2 r' hrest
            constructor
            · simp [hfields]
            · intro f k hmem' hknone
              rcases List.mem_cons.mp hmem' with heq | htail
              · injection heq with he1 he2
                subst he2
                rw [hk] at hknone
                exact Option.noConfusion hknone
              · exact List.mem_cons_of_mem _ (hmem f k htail hknone)

/-- C9 (witness): a mapping with one present and one absent source key
succeeds, keeps both output fields in order, and binds the absent one to the
empty string. -/
theorem parse_data_missing_key_spec_witness :
    ("city", PyVal.str "") ∈
      [("cost", PyVal.str "100"), ("city", PyVal.str "")] :=
  ((parse_data_missing_key_spec [("price", PyVal.str "100")]
      [("cost", "price"), ("city", "town")]).2
    [("cost", PyVal.str "100"), ("city", PyVal.str "")] rfl).2
    "city" "town" (by simp) rfl

/-- Correspondence between `process_url`'s fuelled cutoff loop and the amended
claim's reference state machine `processUrlSpecExc`, for the run's full budget
(`c + fuel = 7`, i.e. cutoffs up to and including 6). -/
theorem loop_vs_specExc (url : String) (config : Config)
    (net : String → String → String → String → ApiResponse)
    (http : String → List (String × PyVal) → Except Unit HttpResponse) :
    ∀ fuel c, c + fuel = 7 →
      processUrlSpecExc url config net http c =
        match process_url_loop url config.api_url config.vendor_token net c fuel with
        | .aborted => .ok .unprocessed
        | .exhausted => .ok .unprocessed
        | .success l =>
          match parse_data l config.api_extraction with
          | .error e => .error e
          | .ok needed =>
            match post_data http config.webform_url needed with
            | .error e => .error e
            | .ok (some true) => .ok Outcome.processed
            | .ok _ => .ok Outcome.unsaved := by
  intro fuel
  induction fuel with
  | zero =>
    intro c hc
    unfold processUrlSpecExc
    rw [dif_pos (by omega)]
    rfl
  | succ fuel ih =>
    intro c hc
    unfold processUrlSpecExc
    rw [dif_neg (by omega)]
    cases hct : create_target_url url c with
    | none => simp only [process_url_loop, hct]
    | some target =>
      cases hg : get_json_data net config.api_url target config.vendor_token with
      | some l => simp only [process_url_loop, hct, hg]
      | none =>
        simp only [process_url_loop, hct, hg]
        exact ih (c + 1) (by omega)

/-- C2 (counterexample): a concrete run on which the original claim fails —
the cutoff loop extracts a listing and the mapping succeeds, but the delivery
POST raises a transport exception (`httpRaise`, utils.py line 349 has no
handler), so `process_url` dies with an uncaught exception and the URL is
appended to none of the three logs: zero outcomes are recorded, not exactly
one. -/
theorem process_url_transport_crash_cex :
    process_url sampleUrl sampleConfig netSold httpRaise 6 = .error () ∧
    ∀ r, process_url sampleUrl sampleConfig netSold httpRaise 6 ≠ Except.ok r := by
  have h : process_url sampleUrl sampleConfig netSold httpRaise 6 = .error () := rfl
  exact ⟨h, fun r hr => by rw [h] at hr; exact Except.noConfusion hr⟩

/-- C2 (amended): for every URL attempted by `process_url`, at most one append
ever happens — either the call completes and the URL goes to exactly one of
the three logs (never more than one), or an uncaught exception (delivery
transport failure, or a field-mapping exception) escapes and the worker dies
with no outcome recorded at all. -/
theorem process_url_at_most_one_append (url : String) (config : Config)
    (net : String → String → String → String → ApiResponse)
    (http : String → List (String × PyVal) → Except Unit HttpResponse) :
    (∃ b log, process_url url config net http 6 = .ok (b, [(log, url)]) ∧
      (log = config.processed_urls ∨ log = config.unprocessed_urls ∨
        log = config.unsaved_urls)) ∨
    (process_url url config net http 6 = .error () ∧
      ∀ r, process_url url config net http 6 ≠ .ok r) := by
  cases hl : process_url_loop url config.api_url config.vendor_token net 3 (6 + 1 - 3) with
  | aborted =>
    have hval : process_url url config net http 6 =
        .ok (false, [(config.unprocessed_urls, url)]) := by
      unfold process_url; rw [hl]
    exact Or.inl ⟨false, config.unprocessed_urls, hval, Or.inr (Or.inl rfl)⟩
  | exhausted =>
    have hval : process_url url config net http 6 =
        .ok (false, [(config.unprocessed_urls, url)]) := by
      unfold process_url; rw [hl]
    exact Or.inl ⟨false, config.unprocessed_urls, hval, Or.inr (Or.inl rfl)⟩
  | success l =>
    cases hpd : parse_data l config.api_extraction with
    | error e =>
      cases e
      have hval : process_url url config net http 6 = .error () := by
        unfold process_url; rw [hl]; simp only [hpd]
      exact Or.inr ⟨hval, fun r hr => by rw [hval] at hr; exact Except.noConfusion hr⟩
    | ok needed =>
      cases hpost : post_data http config.webform_url needed with
      | error e =>
        cases e
        have hval : process_url url config net http 6 = .error () := by
          unfold process_url; rw [hl]; simp only [hpd, hpost]
        exact Or.inr ⟨hval, fun r hr => by rw [hval] at hr; exact Except.noConfusion hr⟩
      | ok ob =>
        rcases ob with _ | b
        · have hval : process_url url config net http 6 =
              .ok (false, [(config.unsaved_urls, url)]) := by
            unfold process_url; rw [hl]; simp only [hpd, hpost]
          exact Or.inl ⟨false, config.unsaved_urls, hval, Or.inr (Or.inr rfl)⟩
        · cases b
          · have hval : process_url url config net http 6 =
                .ok (false, [(config.unsaved_urls, url)]) := by
              unfold process_url; rw [hl]; simp only [hpd, hpost]
            exact Or.inl ⟨false, config.unsaved_urls, hval, Or.inr (Or.inr rfl)⟩
          · have hval : process_url url config net http 6 =
                .ok (true, [(config.processed_urls, url)]) := by
              unfold process_url; rw [hl]; simp only [hpd, hpost]
            exact Or.inl ⟨true, config.processed_urls, hval, Or.inl rfl⟩

/-- C3 (counterexample): a concrete run on which the original claim's state
machine fails against the code — the machine (`processUrlSpec`, worded from
the claim: delivery failure records Unsaved) prescribes the Unsaved outcome,
but `process_url` raises out of the unguarded `requests.post` and records
nothing at all, in particular it does not produce the prescribed Unsaved
append. -/
theorem process_url_unsaved_not_recorded_cex :
    processUrlSpec sampleUrl sampleConfig netSold httpRaise 3 = Outcome.unsaved ∧
    process_url sampleUrl sampleConfig netSold httpRaise 6 ≠
      Except.ok (outcomeBool Outcome.unsaved,
        [(logFileFor sampleConfig Outcome.unsaved, sampleUrl)]) := by
  constructor
  · unfold processUrlSpec
    rw [dif_neg (by omega)]
    rfl
  · intro hcontra
    have h : process_url sampleUrl sampleConfig netSold httpRaise 6 = .error () := rfl
    rw [h] at hcontra
    exact Except.noConfusion hcontra

/-- C3 (amended): `process_url` with its source defaults (starting cutoff 3,
maximum cutoff 6) realizes exactly the amended state machine
`processUrlSpecExc`: Unprocessed on immediate resolution failure or cutoff
exhaustion, and after a successful extraction, Unsaved when the delivery POST
completes with a non-200 status, Processed on a 200 — each appended to
precisely the outcome's log — while a field-mapping or delivery-transport
exception escapes with nothing recorded. -/
theorem process_url_matches_exception_machine (url : String) (config : Config)
    (net : String → String → String → String → ApiResponse)
    (http : String → List (String × PyVal) → Except Unit HttpResponse) :
    process_url url config net http 6 =
      match processUrlSpecExc url config net http 3 with
      | .error e => .error e
      | .ok o => .ok (outcomeBool o, [(logFileFor config o, url)]) := by
  have hspec := loop_vs_specExc url config net http (6 + 1 - 3) 3 (by omega)
  unfold process_url
  cases hl : process_url_loop url config.api_url config.vendor_token net 3 (6 + 1 - 3) with
  | aborted => rw [hl] at hspec; rw [hspec]; rfl
  | exhausted => rw [hl] at hspec; rw [hspec]; rfl
  | success l =>
    rw [hl] at hspec
    have hspec2 : processUrlSpecExc url config net http 3 =
        match parse_data l config.api_extraction with
        | .error e => .error e
        | .ok needed =>
          match post_data http config.webform_url needed with
          | .error e => .error e
          | .ok (some true) => .ok Outcome.processed
          | .ok _ => .ok Outcome.unsaved := by
      rw [hspec]
    cases hpd : parse_data l config.api_extraction with
    | error e =>
      simp only [hpd] at hspec2 ⊢
      rw [hspec2]
    | ok needed =>
      simp only [hpd] at hspec2 ⊢
      cases hpost : post_data http config.webform_url needed with
      | error e =>
        simp only [hpost] at hspec2 ⊢
        rw [hspec2]
      | ok ob =>
        rcases ob with _ | b
        · simp only [hpost] at hspec2 ⊢
          rw [hspec2]
          rfl
        · cases b
          · simp only [hpost] at hspec2 ⊢
            rw [hspec2]
            rfl
          · simp only [hpost] at hspec2 ⊢
            rw [hspec2]
            rfl


end Bot
